import Mathlib

/-!
Verification of the s3-antivirus-scan core against its design document.

The development shallowly embeds the three core components of the repository:

* the ClamAV `INSTREAM` streaming protocol client (`clam.ts`, `streamToClamAv`):
  the framing of the request (command token, length-prefixed chunks,
  zero-length terminator) and the parsing of the daemon's response
  (trailing-NUL stripping, whitespace trimming, and the two case-insensitive
  regular expressions `^stream:\s+OK$` and `^stream:\s+(.+)\s+FOUND$`);
* the scan eligibility filters (`s3.ts`): the size-limit variant and the
  metadata-staleness variant (`isRecentTimestamp`);
* the scan orchestrator (`main.ts`): the per-object retry loop with
  exponential backoff, the run summary accumulation, and the failure-policy
  exit decision driven by `config.ts`.

Machine integers do not overflow in any of the embedded code paths
(sizes and counters are plain non-negative integers), so numbers are
modelled as `Nat`/`Int`.  Byte streams are lists of chunks, each chunk a
list of bytes; response text is a list of characters.  JavaScript regular
expression matching for the two anchored patterns is embedded as an
explicit backtracking search that tries quantifier lengths greedily, from
longest to shortest, exactly as the backtracking engine does.
-/

namespace S3AV

/-! ## Character-level helpers for the JavaScript string operations used
by `clam.ts`: `String.prototype.trim`, the `\s` character class, the `.`
metacharacter (without the `s` flag), and case-insensitive (`i` flag,
non-unicode) comparison, which for the ASCII pattern literals involved
is ASCII case folding. -/

/-- ASCII lower-casing, the effective canonicalisation used by a
non-unicode case-insensitive JavaScript regex when every pattern
character is ASCII. -/
def asciiLower (c : Char) : Char :=
  if 'A' ≤ c ∧ c ≤ 'Z' then Char.ofNat (c.toNat + 32) else c

/-- Case-insensitive comparison of two characters. -/
def ciChar (a b : Char) : Bool :=
  asciiLower a == asciiLower b

/-- The character class `\s` of a JavaScript regex, which is also the
set of characters removed by `String.prototype.trim`. -/
def jsWhitespace (c : Char) : Bool :=
  c.toNat ∈ [9, 10, 11, 12, 13, 32,
    0xa0, 0x1680, 0x2000, 0x2001, 0x2002, 0x2003, 0x2004, 0x2005,
    0x2006, 0x2007, 0x2008, 0x2009, 0x200a,
    0x2028, 0x2029, 0x202f, 0x205f, 0x3000, 0xfeff]

/-- The characters matched by `.` in a JavaScript regex without the `s`
flag: everything except the four line terminators. -/
def jsDot (c : Char) : Bool :=
  !(c.toNat ∈ [10, 13, 0x2028, 0x2029])

/-- Strip a maximal run of trailing NUL characters:
`responseData.replace(/\0+$/, '')` in `clam.ts`. -/
def stripTrailingNuls (l : List Char) : List Char :=
  ((l.reverse).dropWhile (fun c => c.toNat == 0)).reverse

/-- `String.prototype.trim`: drop leading and trailing whitespace. -/
def jsTrim (l : List Char) : List Char :=
  (((l.dropWhile (fun c => jsWhitespace c)).reverse).dropWhile
      (fun c => jsWhitespace c)).reverse

/-- Case-insensitively match a literal pattern prefix, returning the
rest of the text when it matches. -/
def dropCIPrefix : List Char → List Char → Option (List Char)
  | [], l => some l
  | _ :: _, [] => none
  | p :: ps, c :: cs => if ciChar p c then dropCIPrefix ps cs else none

/-- Case-insensitive equality with a literal pattern (anchored at the
end of the text by the caller). -/
def ciEqList : List Char → List Char → Bool
  | [], [] => true
  | _ :: _, [] => false
  | [], _ :: _ => false
  | p :: ps, c :: cs => ciChar p c && ciEqList ps cs

/-- Backtracking search over the possible lengths of a greedy `+`
quantifier: lengths are tried from `n` down to `1`, and the first
success wins, exactly as a backtracking regex engine shrinks a greedy
quantifier one character at a time. -/
def tryLens {α : Type} (n : Nat) (f : Nat → Option α) : Option α :=
  match n with
  | 0 => none
  | Nat.succ k =>
    match f (k + 1) with
    | some a => some a
    | none => tryLens k f

/-- Length of the maximal prefix satisfying a predicate: the longest
text a greedy quantifier over that character class can initially eat. -/
def maxRun (p : Char → Bool) (l : List Char) : Nat :=
  (l.takeWhile p).length

end S3AV

namespace S3AV

/-! ## Response classification (`clam.ts`, `socket.on("end")` handler)

The daemon's accumulated response is cleaned
(`responseData.replace(/\0+$/, '').trim()`) and matched against
`/^stream:\s+OK$/i` and `/^stream:\s+(.+)\s+FOUND$/i`. -/

/-- Response text cleaned as in `clam.ts`: strip trailing NULs, then trim
surrounding whitespace. -/
def cleanedResponse (raw : List Char) : List Char :=
  jsTrim (stripTrailingNuls raw)

/-- Match of `/^stream:\s+OK$/i`: the literal `stream:`, one or more
whitespace characters (tried greedily, longest first), then the literal
`OK` at the end of the text. -/
def cleanMatch (l : List Char) : Bool :=
  match dropCIPrefix ("stream:".toList) l with
  | none => false
  | some rest =>
    (tryLens (maxRun jsWhitespace rest) (fun w =>
      if ciEqList ("OK".toList) (rest.drop w) then some () else none)).isSome

/-- Match of `/^stream:\s+(.+)\s+FOUND$/i`, returning the text captured
by the greedy group `(.+)` when the pattern matches.  Quantifier lengths
are searched in the engine's backtracking order: the leading `\s+`
longest first, then for each such length the capture `(.+)` longest
first, then the trailing `\s+` longest first, with the literal `FOUND`
anchored at the end. -/
def infectedCapture (l : List Char) : Option (List Char) :=
  match dropCIPrefix ("stream:".toList) l with
  | none => none
  | some rest =>
    tryLens (maxRun jsWhitespace rest) (fun w1 =>
      let r1 := rest.drop w1
      tryLens (maxRun jsDot r1) (fun n =>
        let r2 := r1.drop n
        tryLens (maxRun jsWhitespace r2) (fun w2 =>
          if ciEqList ("FOUND".toList) (r2.drop w2) then some (r1.take n)
          else none)))

/-- Verdict of one protocol exchange, the resolution value of
`streamToClamAv`: `{ isInfected: boolean; virusName?: string }`. -/
structure ScanVerdict where
  isInfected : Bool
  virusName : Option (List Char)
deriving DecidableEq, Repr

/-- Settlement of the response-parsing step: the verdict the promise
resolves with, or the `Invalid ClamAV response` rejection carrying the
cleaned text and the raw response. -/
inductive ClamResult where
  | ok (v : ScanVerdict)
  | protocolError (cleaned : List Char) (raw : List Char)
deriving DecidableEq, Repr

/-- Parse the accumulated response exactly as the `end` handler of
`streamToClamAv` does: clean, test the clean pattern, then the infected
pattern, otherwise reject with a protocol error. -/
def parseClamResponse (raw : List Char) : ClamResult :=
  let cleaned := cleanedResponse raw
  if cleanMatch cleaned then ClamResult.ok ⟨false, none⟩
  else
    match infectedCapture cleaned with
    | some name => ClamResult.ok ⟨true, some name⟩
    | none => ClamResult.protocolError cleaned raw

/-- Data-model invariant on a verdict: `virusName` is absent exactly
when the verdict is clean, and present and non-empty exactly when it is
infected. -/
def virusNameInvariant (v : ScanVerdict) : Bool :=
  match v.virusName with
  | none => !v.isInfected
  | some name => v.isInfected && !name.isEmpty

/-- The verdict invariant lifted to a parse result; a protocol error
carries no verdict. -/
def resultInvariant : ClamResult → Bool
  | ClamResult.ok v => virusNameInvariant v
  | ClamResult.protocolError _ _ => true

end S3AV

namespace S3AV

/-! ## Request framing (`clam.ts`, connect callback and `sendChunk`)

Each element of the write list below is the byte payload of one
`socket.write` call, in order: first the command token `"zINSTREAM\0"`,
then, for every chunk the reader yields, a 4-byte big-endian length
prefix followed by the chunk's bytes, and on `done` a 4-byte big-endian
zero.  The loop performs these two writes for *every* chunk the stream
yields, with no emptiness test on `value.length`. -/

/-- Big-endian 4-byte encoding, `Buffer.writeUInt32BE`;
`value.length` of a `Uint8Array` is always below `2^32`. -/
def be32 (n : Nat) : List Nat :=
  [n / 2 ^ 24 % 256, n / 2 ^ 16 % 256, n / 2 ^ 8 % 256, n % 256]

/-- Bytes of the first write, the command token `"zINSTREAM"` followed
by a NUL byte. -/
def cmdWrite : List Nat :=
  ("zINSTREAM".toList.map Char.toNat) ++ [0]

/-- Writes of the `sendChunk` loop for the chunks the reader yields
before `done`: a length prefix and the raw bytes for each chunk. -/
def chunkWrites (chunks : List (List Nat)) : List (List Nat) :=
  chunks.flatMap (fun c => [be32 c.length, c])

/-- Every write of one complete `streamToClamAv` exchange whose source
stream yields `chunks` and then ends: command token, the per-chunk
writes, and the zero-length terminator written at `done`. -/
def clamWrites (chunks : List (List Nat)) : List (List Nat) :=
  cmdWrite :: chunkWrites chunks ++ [be32 0]

/-- The same exchange seen at frame granularity: one
`(length, payload)` frame per chunk the reader yields, then the
`(0, [])` terminator frame at end-of-input. -/
def sentFrames (chunks : List (List Nat)) : List (Nat × List Nat) :=
  chunks.map (fun c => (c.length, c)) ++ [(0, [])]

/-! ## Settlement of one `scan` call (`clam.ts`, whole promise)

The promise's interaction with the outside world is embedded as two
event sequences: reads delivered by the source stream's reader, and
events of the daemon socket.  The send loop consumes reads until `done`
(write the terminator and stop) or a read failure (destroy the socket
and reject with that error); the receive side accumulates `data` events
and settles at `end` (parse) or at a socket `error` (destroy, reject
with that error).  The error type `ε` is abstract, so a settled
rejection necessarily carries the originating error value itself. -/

/-- One read delivered by `stream.getReader().read()`. -/
inductive SourceRead (ε : Type) where
  | chunk (c : List Nat)
  | done
  | readError (e : ε)

/-- One event of the daemon socket observed by the handlers. -/
inductive SocketEvt (ε : Type) where
  | data (text : List Char)
  | endOfResponse
  | socketError (e : ε)

/-- How the `scan` promise settles. -/
inductive Settled (ε : Type) where
  | resolved (v : ScanVerdict)
  | rejectedProtocol (cleaned : List Char) (raw : List Char)
  | rejected (e : ε)

/-- End state of the `sendChunk` loop. -/
inductive SendEnd (ε : Type) where
  | finished
  | failed (e : ε)
  | pending

/-- Run the `sendChunk` loop over the reads the source delivers:
chunks produce a length-prefix write and a payload write, `done`
produces the zero-length terminator write and stops reading, a read
failure stops reading with that error and produces no further write. -/
def sendPhase {ε : Type} : List (SourceRead ε) → List (List Nat) × SendEnd ε
  | [] => ([], SendEnd.pending)
  | SourceRead.done :: _ => ([be32 0], SendEnd.finished)
  | SourceRead.readError e :: _ => ([], SendEnd.failed e)
  | SourceRead.chunk c :: rest =>
    let (w, t) := sendPhase rest
    (be32 c.length :: c :: w, t)

/-- Run the `data`/`end`/`error` handlers over the socket's events,
accumulating response text; returns how the promise settles (none when
the connection never ends: the call hangs) and whether
`socket.destroy()` was called. -/
def respPhase {ε : Type} : List (SocketEvt ε) → List Char →
    Option (Settled ε) × Bool
  | [], _ => (none, false)
  | SocketEvt.data d :: rest, acc => respPhase rest (acc ++ d)
  | SocketEvt.endOfResponse :: _, acc =>
    match parseClamResponse acc with
    | ClamResult.ok v => (some (Settled.resolved v), false)
    | ClamResult.protocolError c r => (some (Settled.rejectedProtocol c r), false)
  | SocketEvt.socketError e :: _, _ => (some (Settled.rejected e), true)

/-- Observable outcome of one `streamToClamAv` call. -/
structure ScanExec (ε : Type) where
  writes : List (List Nat)
  destroyed : Bool
  settled : Option (Settled ε)

/-- One `streamToClamAv` call given the source's reads and the
socket's events: a read failure destroys the connection and rejects
with that exact error before any terminator is written; otherwise the
response side decides the settlement, a socket error likewise
destroying the connection and rejecting with the exact error. -/
def runScan {ε : Type} (source : List (SourceRead ε))
    (socket : List (SocketEvt ε)) : ScanExec ε :=
  let (w, t) := sendPhase source
  match t with
  | SendEnd.failed e =>
    { writes := cmdWrite :: w, destroyed := true,
      settled := some (Settled.rejected e) }
  | _ =>
    let (s, d) := respPhase socket []
    { writes := cmdWrite :: w, destroyed := d, settled := s }

end S3AV

namespace S3AV

/-! ## Configuration (`config.ts`)

`failConfig` holds the three failure-policy flags and the retry
parameters.  A flag is true unless its environment variable,
lower-cased, is one of `"0"`, `"false"`, `"no"`, `"off"`; an unset
variable reads as the empty string. -/

/-- Values recognised as false: `["0", "false", "no", "off"]`. -/
def falsyValues : List String := ["0", "false", "no", "off"]

/-- ASCII lower-casing of a whole string, the effect of
`String.prototype.toLowerCase` on the comparisons against the
all-ASCII members of `falsyValues`. -/
def jsToLower (s : String) : String :=
  String.mk (s.toList.map asciiLower)

/-- One failure-policy flag from its environment variable
(`none` = unset): `!falsyValues.includes((env || "").toLowerCase())`. -/
def flagFromEnv (v : Option String) : Bool :=
  !(falsyValues.contains (jsToLower (v.getD "")))

/-- The `failConfig` record of `config.ts`. -/
structure FailConfig where
  failOnSkipped : Bool
  failOnError : Bool
  failOnInfected : Bool
  retryBackoffSeconds : Nat
  retryMaxAttempts : Nat
deriving DecidableEq, Repr

/-- `failConfig` built from the three policy environment variables,
with the retry parameters given directly (their own env parsing via
`parseInt` is outside the claims). -/
def failConfigOfEnv (skippedVar errorVar infectedVar : Option String)
    (backoff maxAttempts : Nat) : FailConfig :=
  { failOnSkipped := flagFromEnv skippedVar
    failOnError := flagFromEnv errorVar
    failOnInfected := flagFromEnv infectedVar
    retryBackoffSeconds := backoff
    retryMaxAttempts := maxAttempts }

/-- Default retry ceiling: `parseInt(... || "3")`. -/
def defaultRetryMaxAttempts : Nat := 3

/-- Default backoff base in seconds: `parseInt(... || "2")`. -/
def defaultRetryBackoffSeconds : Nat := 2

/-! ## Scan orchestrator (`main.ts`, the retry-loop revision)

Each candidate object is scanned for up to `retryMaxAttempts` attempts;
`attempt` is incremented before each try, a failure with attempts
remaining sleeps `retryBackoffSeconds ** attempt` seconds, and a
failure at the ceiling records an error outcome.  The environment of
one object is the outcome of each numbered attempt (stream acquisition
plus `streamToClamAv`, whose three failure sources all surface as one
thrown error caught by the same `catch`), the outcome of the
diagnostic metadata fetch, and the object's elapsed wall-clock time. -/

/-- Cause of one failed attempt: the stream acquisition returned no
stream (or threw), the transport to the daemon failed, or the daemon's
response was unparseable.  The `catch` in `main.ts` never inspects
which of the three it caught. -/
inductive ScanError where
  | noStream
  | transport
  | protocol
deriving DecidableEq, Repr

/-- Outcome of one numbered attempt on one object. -/
inductive Attempt where
  | fails (e : ScanError)
  | succeeds (v : ScanVerdict)
deriving DecidableEq, Repr

/-- Whether an attempt failed (threw into the `catch`). -/
def Attempt.isFailure : Attempt → Bool
  | Attempt.fails _ => true
  | Attempt.succeeds _ => false

/-- The cause of an attempt when it failed. -/
def Attempt.causeOpt : Attempt → Option ScanError
  | Attempt.fails e => some e
  | Attempt.succeeds _ => none

/-- Result of `statObject`: the object's store metadata snapshot. -/
structure S3ObjectStatus where
  metadata : List (String × String)
deriving DecidableEq, Repr

/-- Environment of one candidate object during the run: what each
numbered attempt (1-indexed) would produce, what the diagnostic
metadata fetch would produce, and the elapsed seconds the error path
would observe for this object. -/
structure ObjectEnv where
  att : Nat → Attempt
  statObject : Option S3ObjectStatus
  elapsed : Nat

/-- Modelled from the spec: `getObjectStatus` itself is absent from the
sources (only its import and call sites appear).  Per the spec it is
the best-effort re-fetch of the object's current store metadata used
for diagnostics on the error path, whose own failure must not mask the
original error; it is therefore embedded as a total function returning
`none` when that fetch fails. -/
def getObjectStatus (env : ObjectEnv) : Option S3ObjectStatus :=
  env.statObject

/-- State left by the per-object `while` loop: the `clamAVResponse`
variable (set on a successful attempt), the cause recorded by the
final-attempt `catch` (when every attempt failed), and the backoff
delays slept between attempts, in order. -/
structure ObjectOutcome where
  response : Option ScanVerdict
  recordedError : Option ScanError
  backoffs : List Nat
deriving DecidableEq, Repr

/-- The `while (attempt < retryMaxAttempts)` loop, `attempt` being the
number of attempts already started and `fuel` the remaining loop
iterations (`retryMaxAttempts - attempt`, so the guard is `0 < fuel`):
increment `attempt`, run the attempt; on success store the response and
break; on failure either record the error (no attempts remaining) or
sleep `retryBackoffSeconds ^ attempt` seconds and continue. -/
def retryLoop (cfg : FailConfig) (att : Nat → Attempt) :
    Nat → Nat → ObjectOutcome
  | _, 0 => { response := none, recordedError := none, backoffs := [] }
  | attempt, Nat.succ fuel =>
    let a := attempt + 1
    match att a with
    | Attempt.succeeds v =>
      { response := some v, recordedError := none, backoffs := [] }
    | Attempt.fails e =>
      if cfg.retryMaxAttempts ≤ a then
        { response := none, recordedError := some e, backoffs := [] }
      else
        let rest := retryLoop cfg att a fuel
        { rest with backoffs := cfg.retryBackoffSeconds ^ a :: rest.backoffs }

/-- Outcome of the whole retry loop for one object, started at
`attempt = 0` with `retryMaxAttempts` iterations available. -/
def objectOutcome (cfg : FailConfig) (env : ObjectEnv) : ObjectOutcome :=
  retryLoop cfg env.att 0 cfg.retryMaxAttempts

/-- The `summary.counts` record. -/
structure Counts where
  success : Nat
  clean : Nat
  infected : Nat
  skipped : Nat
  errors : Nat
deriving DecidableEq, Repr

/-- One entry of `summary.results`: either an infected verdict
(`{ objectKey, clamAVResponse }`) or an exhausted-retry error
(`{ objectKey, error, objectStatus, durationSeconds }`). -/
inductive ResultRecord where
  | infectedRecord (objectKey : String) (clamAVResponse : ScanVerdict)
  | errorRecord (objectKey : String) (error : ScanError)
      (objectStatus : Option S3ObjectStatus) (durationSeconds : Nat)
deriving DecidableEq, Repr

/-- The run summary accumulated by `main` (wall-clock
`durationSeconds` of the whole run is outside the embedding). -/
structure Summary where
  counts : Counts
  results : List ResultRecord
deriving DecidableEq, Repr

/-- A record is retained only for a non-clean case: an infected
verdict or an error. -/
def recordNonClean : ResultRecord → Bool
  | ResultRecord.infectedRecord _ v => v.isInfected
  | ResultRecord.errorRecord _ _ _ _ => true

/-- Whether a record is an error record. -/
def recordIsError : ResultRecord → Bool
  | ResultRecord.infectedRecord _ _ => false
  | ResultRecord.errorRecord _ _ _ _ => true

/-- Processing of one candidate object in the `for` loop: run the
retry loop; the final-attempt `catch` pushes an error record (with the
cause, the best-effort metadata snapshot and the object's elapsed
time) and increments `errors`; a stored response increments `success`
and either increments `clean` (nothing retained) or increments
`infected` and pushes the verdict record. -/
def step (cfg : FailConfig) (s : Summary) (obj : String × ObjectEnv) :
    Summary :=
  let out := objectOutcome cfg obj.2
  let s1 :=
    match out.recordedError with
    | some e =>
      { s with
        counts := { s.counts with errors := s.counts.errors + 1 },
        results := s.results ++
          [ResultRecord.errorRecord obj.1 e (getObjectStatus obj.2) obj.2.elapsed] }
    | none => s
  match out.response with
  | some v =>
    if v.isInfected then
      { s1 with
        counts := { s1.counts with
          success := s1.counts.success + 1,
          infected := s1.counts.infected + 1 },
        results := s1.results ++ [ResultRecord.infectedRecord obj.1 v] }
    else
      { s1 with
        counts := { s1.counts with
          success := s1.counts.success + 1,
          clean := s1.counts.clean + 1 } }
  | none => s1

/-- The whole run of `main` over the candidate objects, after the
eligibility filter produced the candidates and the skipped count:
start from zero counts with `skipped` set from the filter's
aggregates, then process each candidate in order. -/
def runMain (cfg : FailConfig) (skipped : Nat)
    (objs : List (String × ObjectEnv)) : Summary :=
  objs.foldl (step cfg)
    { counts := { success := 0, clean := 0, infected := 0,
                  skipped := skipped, errors := 0 },
      results := [] }

end S3AV

namespace S3AV

/-! ## Scan eligibility, size mode (`s3.ts`, `getObjectsForScanning`)

The listing loop skips objects without a key (`!obj.key`, so a missing
key or the empty string), skips folder-like keys (ending in `/`),
skips objects that are too large (`obj.size && obj.size > maxFileSize`,
so the size test applies only to a present, non-zero size), adds every
other key to the result set, and stops early once an optional limit is
reached (`limit && filesToScan.size >= limit`, so a zero limit is no
limit). -/

/-- One object of the store listing: `{ key, size }` as the client
yields it, either field possibly absent. -/
structure ListedObject where
  key : Option String
  size : Option Nat
deriving DecidableEq, Repr

/-- Truthiness of `obj.key`: present and not the empty string. -/
def hasKey (o : ListedObject) : Bool :=
  match o.key with
  | none => false
  | some s => !s.isEmpty

/-- The key of an object known to have one. -/
def keyOf (o : ListedObject) : String :=
  o.key.getD ""

/-- Test of `obj.key.endsWith("/")`: a folder-like placeholder key.
The suffix is the single character `/`, so the test is whether the
key's last character is `/` (false for the empty string). -/
def isFolderKey (s : String) : Bool :=
  s.toList.getLast? == some '/'

/-- Truthiness of `obj.size`: a present, non-zero size. -/
def sizeTruthy : Option Nat → Bool
  | none => false
  | some n => decide (0 < n)

/-- The oversize test `obj.size && obj.size > maxFileSize`. -/
def isOversize (maxFileSize : Nat) (o : ListedObject) : Bool :=
  sizeTruthy o.size && decide (maxFileSize < o.size.getD 0)

/-- An object the size-mode loop reaches the size test for: it has a
truthy key that is not folder-like. -/
def scannableKey (o : ListedObject) : Bool :=
  hasKey o && !isFolderKey (keyOf o)

/-- Addition to the result `Set<string>`: sets keep one copy of each
key and preserve first-insertion order. -/
def insertUniq (acc : List String) (k : String) : List String :=
  if k ∈ acc then acc else acc ++ [k]

/-- Truthiness test `limit && filesToScan.size >= limit`. -/
def limitReached : Option Nat → Nat → Bool
  | none, _ => false
  | some l, n => decide (0 < l) && decide (l ≤ n)

/-- Modelled from the spec: the revision of `getObjectsForScanning`
returning `{ objectKeys, aggregates }` is absent from the sources (only
its callers in `main.ts` appear); its per-object skip rules are those
of the `s3.ts` size-mode loop that is present, and per the spec the
missing `aggregates.skippedCount` counts exactly the objects excluded
by the size rule (folder placeholders and keyless entries are excluded
without counting).  The loop carries the selected keys and the skipped
count and stops early when the limit is reached. -/
def selectBySize (maxFileSize : Nat) (limit : Option Nat) :
    List ListedObject → List String → Nat → List String × Nat
  | [], sel, sk => (sel, sk)
  | o :: rest, sel, sk =>
    if !hasKey o then selectBySize maxFileSize limit rest sel sk
    else if isFolderKey (keyOf o) then selectBySize maxFileSize limit rest sel sk
    else if isOversize maxFileSize o then
      selectBySize maxFileSize limit rest sel (sk + 1)
    else
      let sel2 := insertUniq sel (keyOf o)
      if limitReached limit sel2.length then (sel2, sk)
      else selectBySize maxFileSize limit rest sel2 sk

/-- Size-mode `getObjectsForScanning` over a full listing: selected
keys in enumeration order and the skipped count. -/
def getObjectsForScanningBySize (maxFileSize : Nat) (limit : Option Nat)
    (objs : List ListedObject) : List String × Nat :=
  selectBySize maxFileSize limit objs [] 0

/-- First-occurrence deduplication, the contents of a `Set` built by
inserting a list of keys in order. -/
def dedupKeep (l : List String) : List String :=
  l.foldl insertUniq []

/-! ## Scan eligibility, staleness mode (`s3.ts` staleness revision)

Eligibility is decided from the object's stored scan metadata: the
`x-amz-meta-clam-av-status` and `x-amz-meta-clam-av-timestamp` tags of
its `statObject` snapshot.  `Date.parse` (and `new Date(...).getTime()`
on the same string) is abstracted as a parse oracle returning the epoch
milliseconds, `none` standing for `NaN`; `Date.now()` is the abstract
current time. -/

/-- Lookup of one metadata tag. -/
def metaLookup (m : List (String × String)) (k : String) : Option String :=
  (m.find? (fun p => p.1 == k)).map Prod.snd

/-- Metadata key of the stored scan status. -/
def clamAvStatusKey : String := "x-amz-meta-clam-av-status"

/-- Metadata key of the stored scan timestamp. -/
def clamAvTimestampKey : String := "x-amz-meta-clam-av-timestamp"

/-- Staleness threshold: one week in seconds
(`LAST_SCAN_THRESHOLD_SECONDS = 7 * 24 * 60 * 60`). -/
def LAST_SCAN_THRESHOLD_SECONDS : Int := 7 * 24 * 60 * 60

/-- The `isRecentTimestamp` helper: false when the timestamp is falsy
(absent or empty) or unparseable (`isNaN(Date.parse(t))`), else true
exactly when `now - parsed < thresholdSeconds * 1000`. -/
def isRecentTimestamp (parse : String → Option Int) (now : Int)
    (timestamp : Option String) (thresholdSeconds : Int) : Bool :=
  match timestamp with
  | none => false
  | some t =>
    if t.isEmpty then false
    else
      match parse t with
      | none => false
      | some ms => decide (now - ms < thresholdSeconds * 1000)

/-- Per-object eligibility of the staleness loop:
`!scannedRecently || !isCleanScan`. -/
def needsScan (parse : String → Option Int) (now : Int)
    (st : S3ObjectStatus) : Bool :=
  let clamAvStatus := metaLookup st.metadata clamAvStatusKey
  let clamAvTimestamp := metaLookup st.metadata clamAvTimestampKey
  let scannedRecently := isRecentTimestamp parse now clamAvTimestamp
    LAST_SCAN_THRESHOLD_SECONDS
  let isCleanScan := clamAvStatus == some "clean"
  !scannedRecently || !isCleanScan

/-- Truthiness of a listing key on its own. -/
def keyTruthy : Option String → Bool
  | none => false
  | some s => !s.isEmpty

/-- The staleness-mode listing loop: skip keyless objects, stat each
remaining object, add its key when it needs scanning, and stop early
when the limit is reached (the limit test runs for every keyed object).
The filter is total: no metadata shape makes it fail. -/
def selectByStaleness (parse : String → Option Int) (now : Int)
    (limit : Option Nat) :
    List (Option String × S3ObjectStatus) → List String → List String
  | [], sel => sel
  | (k, st) :: rest, sel =>
    if !keyTruthy k then selectByStaleness parse now limit rest sel
    else
      let sel2 :=
        if needsScan parse now st then insertUniq sel (k.getD "") else sel
      if limitReached limit sel2.length then sel2
      else selectByStaleness parse now limit rest sel2

/-- Staleness-mode `getObjectsForScanning` over a full listing. -/
def getObjectsForScanningByStaleness (parse : String → Option Int)
    (now : Int) (limit : Option Nat)
    (objs : List (Option String × S3ObjectStatus)) : List String :=
  selectByStaleness parse now limit objs []

/-! ## Failure policy (`main.ts` entry block and `config.ts`)

After the run, three `if` statements in order test
`failOnSkipped && skipped > 0`, `failOnError && errors > 0`,
`failOnInfected && infected > 0`; the first that holds reports its
diagnostic and exits with code 1, otherwise the process exits 0. -/

/-- Which condition is reported when the run fails. -/
inductive FailReason where
  | skippedReason
  | errorsReason
  | infectedReason
deriving DecidableEq, Repr

/-- The first failing policy condition in reporting order, if any. -/
def failReason (fc : FailConfig) (c : Counts) : Option FailReason :=
  if fc.failOnSkipped && decide (0 < c.skipped) then some FailReason.skippedReason
  else if fc.failOnError && decide (0 < c.errors) then some FailReason.errorsReason
  else if fc.failOnInfected && decide (0 < c.infected) then
    some FailReason.infectedReason
  else none

/-- The process exit code: 1 when some enabled policy condition holds,
0 otherwise. -/
def exitCode (fc : FailConfig) (c : Counts) : Nat :=
  match failReason fc c with
  | some _ => 1
  | none => 0

end S3AV
namespace S3AV

/-- A successful backtracking search returns the value of `f` at some
quantifier length between 1 and `n`. -/
theorem tryLens_eq_some {α : Type} {n : Nat} {f : Nat → Option α} {a : α}
    (h : tryLens n f = some a) : ∃ k, 1 ≤ k ∧ k ≤ n ∧ f k = some a := by
  induction n with
  | zero => simp [tryLens] at h
  | succ m ih =>
    cases hm : f (m + 1) with
    | some b =>
      simp only [tryLens, hm] at h
      exact ⟨m + 1, Nat.succ_le_succ (Nat.zero_le m), Nat.le_refl _,
        by rw [hm, h]⟩
    | none =>
      simp only [tryLens, hm] at h
      obtain ⟨k, h1, h2, h3⟩ := ih h
      exact ⟨k, h1, Nat.le_succ_of_le h2, h3⟩

/-- The text captured by the infected pattern's `(.+)` group is never
empty: the group requires at least one character. -/
theorem infectedCapture_ne_nil {l name : List Char}
    (h : infectedCapture l = some name) : name ≠ [] := by
  unfold infectedCapture at h
  cases hdp : dropCIPrefix ("stream:".toList) l with
  | none => rw [hdp] at h; exact absurd h (by simp)
  | some rest =>
    rw [hdp] at h
    obtain ⟨w1, hw1, hw1n, h1⟩ := tryLens_eq_some h
    obtain ⟨n, hn1, hn2, h2⟩ := tryLens_eq_some h1
    obtain ⟨w2, hv1, hv2, h3⟩ := tryLens_eq_some h2
    have hlen : n ≤ (rest.drop w1).length :=
      Nat.le_trans hn2 (List.takeWhile_sublist jsDot).length_le
    have hname : (rest.drop w1).take n = name := by
      by_cases hcc : ciEqList ("FOUND".toList)
          (((rest.drop w1).drop n).drop w2) = true
      · rw [if_pos hcc] at h3
        exact Option.some.inj h3
      · rw [if_neg hcc] at h3
        exact absurd h3 (by simp)
    rw [← hname]
    intro hnil
    rcases List.take_eq_nil_iff.mp hnil with h0 | h0
    · omega
    · rw [h0] at hlen
      simp at hlen
      omega

end S3AV
namespace S3AV

/-- Claim C1: for every response byte sequence received from the
daemon, `streamToClamAv` first strips any trailing NUL bytes and trims
surrounding whitespace; if the cleaned text matches `stream: OK`
case-insensitively the promise resolves with a clean verdict whose
`virusName` is absent; if it matches `stream: <name> FOUND`
case-insensitively it resolves with an infected verdict whose
`virusName` is the non-empty captured name; any other text rejects
with the protocol error carrying both the cleaned text and the raw
response.  Hence `virusName` is absent exactly when the verdict is
clean, and present and non-empty exactly when it is infected. -/
theorem C1_response_classification (raw : List Char) :
    (parseClamResponse raw = ClamResult.ok ⟨false, none⟩ ↔
      cleanMatch (cleanedResponse raw) = true)
    ∧ (∀ name : List Char,
        parseClamResponse raw = ClamResult.ok ⟨true, some name⟩ ↔
          (cleanMatch (cleanedResponse raw) = false ∧
            infectedCapture (cleanedResponse raw) = some name))
    ∧ (parseClamResponse raw = ClamResult.protocolError (cleanedResponse raw) raw ↔
        (cleanMatch (cleanedResponse raw) = false ∧
          infectedCapture (cleanedResponse raw) = none))
    ∧ resultInvariant (parseClamResponse raw) = true := by
  cases hcm : cleanMatch (cleanedResponse raw) with
  | true =>
    refine ⟨?_, ?_, ?_, ?_⟩ <;>
      simp [parseClamResponse, hcm, resultInvariant, virusNameInvariant]
  | false =>
    cases hcap : infectedCapture (cleanedResponse raw) with
    | some name0 =>
      have hne : name0 ≠ [] := infectedCapture_ne_nil hcap
      refine ⟨?_, ?_, ?_, ?_⟩
      · simp [parseClamResponse, hcm, hcap]
      · intro name
        simp only [parseClamResponse, hcm, hcap]
        simp [eq_comm]
      · simp [parseClamResponse, hcm, hcap]
      · simp only [parseClamResponse, hcm, hcap, resultInvariant,
          virusNameInvariant]
        cases name0 with
        | nil => exact absurd rfl hne
        | cons c cs => simp
    | none =>
      refine ⟨?_, ?_, ?_, ?_⟩ <;>
        simp [parseClamResponse, hcm, hcap, resultInvariant]

end S3AV
namespace S3AV

/-- Claim C2, evaluated at the failing input: a source stream that
yields an empty chunk and then a one-byte chunk.  The `sendChunk` loop
writes a 4-byte big-endian length prefix for *every* chunk the reader
yields, with no emptiness test, so the empty chunk produces the frame
`(0, [])` — the protocol's terminator — before end-of-input, and the
terminator is then written again at `done`: the zero-length frame is
not sent exactly once at end-of-input, contradicting the claim (and
the `Send zero-length chunk to indicate end of stream` comment's own
reading of a zero-length frame). -/
theorem C2_empty_chunk_premature_terminator :
    clamWrites [[], [65]] =
      [cmdWrite, [0, 0, 0, 0], [], [0, 0, 0, 1], [65], [0, 0, 0, 0]]
    ∧ sentFrames [[], [65]] = [(0, []), (1, [65]), (0, [])] := by
  constructor <;> rfl

/-- Helper: the send loop over the chunks a source yields before its
next read outcome. -/
theorem sendPhase_chunks {ε : Type} (chunks : List (List Nat))
    (l : List (SourceRead ε)) :
    sendPhase (chunks.map SourceRead.chunk ++ l) =
      (chunkWrites chunks ++ (sendPhase l).1, (sendPhase l).2) := by
  induction chunks with
  | nil => simp [chunkWrites]
  | cons c rest ih =>
    simp only [List.map_cons, List.cons_append, sendPhase]
    simp [ih, chunkWrites]

/-- Helper: `data` events only accumulate text; a socket error settles
the call by destroying the socket and rejecting with that error, no
matter what was accumulated or what follows. -/
theorem respPhase_data_then_error {ε : Type} (datas : List (List Char))
    (e : ε) (rest : List (SocketEvt ε)) (acc : List Char) :
    respPhase (datas.map SocketEvt.data ++ SocketEvt.socketError e :: rest) acc =
      (some (Settled.rejected e), true) := by
  induction datas generalizing acc with
  | nil => simp [respPhase]
  | cons d ds ih =>
    simp only [List.map_cons, List.cons_append, respPhase]
    simpa using ih (acc ++ d)

/-- Claim C9: a read failure on the source stream mid-scan, and a
transport failure on the connection, each abort the exchange, destroy
the connection, and reject the `scan` promise with the originating
error value itself — the error type `ε` is abstract, so the settled
rejection can only carry the very error that occurred.  On a read
failure the writes stop at the frames already sent (no terminator);
on a transport failure after the writes, the full framed request was
sent and the accumulated response is discarded. -/
theorem C9_originating_error_surfaces (ε : Type) (chunks : List (List Nat))
    (e : ε) (restReads : List (SourceRead ε)) (socket : List (SocketEvt ε))
    (datas : List (List Char)) (e2 : ε) (restEvts : List (SocketEvt ε)) :
    (runScan (chunks.map SourceRead.chunk ++ SourceRead.readError e :: restReads)
        socket =
      { writes := cmdWrite :: chunkWrites chunks, destroyed := true,
        settled := some (Settled.rejected e) })
    ∧ (runScan (chunks.map SourceRead.chunk ++ [SourceRead.done])
        (datas.map SocketEvt.data ++ SocketEvt.socketError e2 :: restEvts) =
      { writes := clamWrites chunks, destroyed := true,
        settled := some (Settled.rejected e2) }) := by
  constructor
  · have hs := sendPhase_chunks chunks (SourceRead.readError e :: restReads)
    simp only [runScan, hs, sendPhase]
    simp
  · have hs := sendPhase_chunks chunks ([SourceRead.done] : List (SourceRead ε))
    simp only [runScan, hs, sendPhase, respPhase_data_then_error, clamWrites]
    simp

end S3AV
namespace S3AV

/-- Unfolding of one iteration of the retry loop. -/
theorem retryLoop_succ (cfg : FailConfig) (att : Nat → Attempt)
    (attempt fuel : Nat) :
    retryLoop cfg att attempt (fuel + 1) =
      match att (attempt + 1) with
      | Attempt.succeeds v =>
        { response := some v, recordedError := none, backoffs := [] }
      | Attempt.fails e =>
        if cfg.retryMaxAttempts ≤ attempt + 1 then
          { response := none, recordedError := some e, backoffs := [] }
        else
          let rest := retryLoop cfg att (attempt + 1) fuel
          { rest with
            backoffs := cfg.retryBackoffSeconds ^ (attempt + 1) :: rest.backoffs } :=
  rfl

/-- Helper: a retry loop in which every remaining attempt fails ends
with no response, records the cause of the final attempt, and sleeps
`backoff ^ i` after each non-final failed attempt `i`. -/
theorem retryLoop_all_fail (cfg : FailConfig) (att : Nat → Attempt) :
    ∀ (fuel attempt : Nat),
    attempt + fuel = cfg.retryMaxAttempts → 0 < fuel →
    (∀ i, attempt < i → i ≤ cfg.retryMaxAttempts → (att i).isFailure = true) →
    retryLoop cfg att attempt fuel =
      { response := none,
        recordedError := (att cfg.retryMaxAttempts).causeOpt,
        backoffs := (List.range' (attempt + 1) (fuel - 1)).map
          (fun i => cfg.retryBackoffSeconds ^ i) } := by
  intro fuel
  induction fuel with
  | zero => intro attempt _ h0; omega
  | succ f ih =>
    intro attempt hsum _ hfail
    have hf1 : (att (attempt + 1)).isFailure = true :=
      hfail (attempt + 1) (Nat.lt_succ_self attempt) (by omega)
    cases hatt : att (attempt + 1) with
    | succeeds v => rw [hatt] at hf1; simp [Attempt.isFailure] at hf1
    | fails e =>
      rw [retryLoop_succ, hatt]
      dsimp only
      cases f with
      | zero =>
        have hmax : attempt + 1 = cfg.retryMaxAttempts := by omega
        rw [if_pos (by omega)]
        simp [← hmax, hatt, Attempt.causeOpt]
      | succ f2 =>
        have hlt : ¬cfg.retryMaxAttempts ≤ attempt + 1 := by omega
        rw [if_neg hlt]
        rw [ih (attempt + 1) (by omega) (by omega)
          (fun i hi1 hi2 => hfail i (by omega) hi2)]
        have hr : List.range' (attempt + 1) (f2 + 2 - 1) =
            (attempt + 1) :: List.range' (attempt + 2) (f2 + 1 - 1) := by
          have h2 : f2 + 2 - 1 = (f2 + 1 - 1) + 1 := by omega
          rw [h2, List.range'_succ]
        rw [hr]
        simp

/-- Helper: a retry loop whose attempts before `k` all fail and whose
attempt `k` succeeds ends with the verdict of attempt `k`, records no
error, and sleeps `backoff ^ i` after each failed attempt
`i = attempt+1 … k-1`. -/
theorem retryLoop_succeeds_at (cfg : FailConfig) (att : Nat → Attempt)
    (k : Nat) (v : ScanVerdict) :
    ∀ (fuel attempt : Nat),
    attempt + fuel = cfg.retryMaxAttempts →
    attempt < k → k ≤ cfg.retryMaxAttempts →
    (∀ i, attempt < i → i < k → (att i).isFailure = true) →
    att k = Attempt.succeeds v →
    retryLoop cfg att attempt fuel =
      { response := some v, recordedError := none,
        backoffs := (List.range' (attempt + 1) (k - 1 - attempt)).map
          (fun i => cfg.retryBackoffSeconds ^ i) } := by
  intro fuel
  induction fuel with
  | zero => intro attempt h1 h2 h3 _ _; omega
  | succ f ih =>
    intro attempt hsum hk1 hk2 hfail hsucc
    by_cases heq : attempt + 1 = k
    · rw [retryLoop_succ, heq, hsucc]
      have h0 : k - 1 - attempt = 0 := by omega
      simp [h0]
    · have hf1 : (att (attempt + 1)).isFailure = true :=
        hfail (attempt + 1) (Nat.lt_succ_self attempt) (by omega)
      cases hatt : att (attempt + 1) with
      | succeeds w => rw [hatt] at hf1; simp [Attempt.isFailure] at hf1
      | fails e =>
        have hlt : ¬cfg.retryMaxAttempts ≤ attempt + 1 := by omega
        rw [retryLoop_succ, hatt]
        dsimp only
        rw [if_neg hlt]
        rw [ih (attempt + 1) (by omega) (by omega) hk2
          (fun i hi1 hi2 => hfail i (by omega) hi2) hsucc]
        have hr : List.range' (attempt + 1) (k - 1 - attempt) =
            (attempt + 1) :: List.range' (attempt + 2) (k - 1 - (attempt + 1)) := by
          have h2 : k - 1 - attempt = (k - 1 - (attempt + 1)) + 1 := by omega
          rw [h2, List.range'_succ]
        rw [hr]
        simp

end S3AV
namespace S3AV

/-- Configuration with the default retry parameters (`RETRY_BACKOFF_SECONDS`
defaulting to 2, `RETRY_MAX_ATTEMPTS` to 3) and all policy flags at
their default. -/
def cfgDefaults : FailConfig :=
  { failOnSkipped := true, failOnError := true, failOnInfected := true,
    retryBackoffSeconds := defaultRetryBackoffSeconds,
    retryMaxAttempts := defaultRetryMaxAttempts }

/-- Object whose first two attempts fail with a transport error and
whose third attempt succeeds with an infected verdict. -/
def envRetryInfected : ObjectEnv :=
  { att := fun i =>
      if i < 3 then Attempt.fails ScanError.transport
      else Attempt.succeeds ⟨true, some ['E']⟩,
    statObject := none, elapsed := 0 }

/-- Claim C3, counterexample: an object whose first two attempts fail
and whose third succeeds with an infected verdict is counted as a
success, yet `results` is not empty — the infected outcome record is
appended, so a retried-then-successful object is not always "a success
with no entry in results" as the claim states. -/
theorem C3_counterexample_infected_retry :
    (runMain cfgDefaults 0 [("infected-file.txt", envRetryInfected)]).counts.success = 1
    ∧ (runMain cfgDefaults 0 [("infected-file.txt", envRetryInfected)]).results ≠ [] := by
  constructor
  · rfl
  · decide

/-- Two initial elements of a length-two-or-more range. -/
theorem range1_split_two (m : Nat) :
    List.range' 1 (m + 2) = 1 :: 2 :: List.range' 3 m := by
  rw [show m + 2 = (m + 1) + 1 from rfl, List.range'_succ, List.range'_succ]

/-- Claim C3 (amended): the orchestrator retries failed attempts —
the failure causes are arbitrary, so stream-acquisition, transport and
protocol failures are treated uniformly — up to
`cfg.retryMaxAttempts`; after the `i`-th failed attempt it sleeps
`retryBackoffSeconds ^ i` seconds; an object whose attempts before `k`
fail and whose attempt `k ≤ retryMaxAttempts` succeeds ends with that
verdict, records no error, is counted as a success appending no error
entry to `results` (an infected verdict still appends its infected
record, as for any success), and the backoff slept before a
third-or-later-attempt success is at least
`retryBackoffSeconds ^ 1 + retryBackoffSeconds ^ 2` seconds. -/
theorem C3_retry_backoff (cfg : FailConfig) (env : ObjectEnv)
    (k : Nat) (v : ScanVerdict)
    (h1 : 1 ≤ k) (hk : k ≤ cfg.retryMaxAttempts)
    (hfail : ∀ i, 1 ≤ i → i < k → (env.att i).isFailure = true)
    (hsucc : env.att k = Attempt.succeeds v) :
    objectOutcome cfg env =
      { response := some v, recordedError := none,
        backoffs := (List.range' 1 (k - 1)).map
          (fun i => cfg.retryBackoffSeconds ^ i) }
    ∧ (∀ (s : Summary) (key : String),
        step cfg s (key, env) =
          if v.isInfected then
            { counts := { s.counts with
                success := s.counts.success + 1,
                infected := s.counts.infected + 1 },
              results := s.results ++ [ResultRecord.infectedRecord key v] }
          else
            { counts := { s.counts with
                success := s.counts.success + 1,
                clean := s.counts.clean + 1 },
              results := s.results })
    ∧ (3 ≤ k →
        cfg.retryBackoffSeconds ^ 1 + cfg.retryBackoffSeconds ^ 2 ≤
          (objectOutcome cfg env).backoffs.sum) := by
  have hout : objectOutcome cfg env =
      { response := some v, recordedError := none,
        backoffs := (List.range' 1 (k - 1)).map
          (fun i => cfg.retryBackoffSeconds ^ i) } := by
    unfold objectOutcome
    have := retryLoop_succeeds_at cfg env.att k v cfg.retryMaxAttempts 0
      (by omega) (by omega) hk hfail hsucc
    simpa using this
  refine ⟨hout, ?_, ?_⟩
  · intro s key
    simp only [step, hout]
  · intro hk3
    rw [hout]
    have h2 : k - 1 = (k - 3) + 2 := by omega
    rw [h2, range1_split_two]
    simp only [List.map_cons, List.sum_cons]
    have hrest : 0 ≤ ((List.range' 3 (k - 3)).map
        (fun i => cfg.retryBackoffSeconds ^ i)).sum := Nat.zero_le _
    omega

/-- Object whose first attempt fails to acquire a stream, whose second
attempt fails with a protocol error, and whose third attempt succeeds
with a clean verdict. -/
def envRetryClean : ObjectEnv :=
  { att := fun i =>
      if i = 1 then Attempt.fails ScanError.noStream
      else if i = 2 then Attempt.fails ScanError.protocol
      else Attempt.succeeds ⟨false, none⟩,
    statObject := none, elapsed := 0 }

/-- Witness for the amended claim C3 at the default configuration: two
failed attempts of distinct kinds, then a clean third-attempt success,
yield the clean response with backoffs `2 ^ 1 = 2` then `2 ^ 2 = 4`
seconds, summing to at least `2 + 4`. -/
theorem C3_retry_backoff_witness :
    objectOutcome cfgDefaults envRetryClean =
      { response := some ⟨false, none⟩, recordedError := none,
        backoffs := [2, 4] }
    ∧ 6 ≤ (objectOutcome cfgDefaults envRetryClean).backoffs.sum := by
  have h := C3_retry_backoff cfgDefaults envRetryClean 3 ⟨false, none⟩
    (by decide) (by decide)
    (by intro i hi1 hi2; interval_cases i <;> rfl) rfl
  refine ⟨by rw [h.1]; rfl, ?_⟩
  have h6 := h.2.2 (by decide)
  simpa using h6

end S3AV
namespace S3AV

/-- Claim C8: when every attempt on an object fails, the orchestrator
ends the retry loop with no response, records exactly one `Error`
outcome carrying the last attempt's cause, the best-effort metadata
snapshot (which may itself be `none` — a failed diagnostic fetch — 
without masking the cause) and the object's elapsed time, increments
`errors`, and the run continues over the remaining objects unchanged:
the whole run is the fold of the same step function over `post` from
the summary so extended, so no per-object failure aborts the run. -/
theorem C8_exhausted_retries_contained (cfg : FailConfig) (env : ObjectEnv)
    (e : ScanError) (key : String) (sk : Nat)
    (pre post : List (String × ObjectEnv))
    (hmax : 0 < cfg.retryMaxAttempts)
    (hfail : ∀ i, 1 ≤ i → i ≤ cfg.retryMaxAttempts →
      (env.att i).isFailure = true)
    (hlast : env.att cfg.retryMaxAttempts = Attempt.fails e) :
    (objectOutcome cfg env).response = none
    ∧ (objectOutcome cfg env).recordedError = some e
    ∧ runMain cfg sk (pre ++ (key, env) :: post) =
        List.foldl (step cfg)
          { counts := { (runMain cfg sk pre).counts with
              errors := (runMain cfg sk pre).counts.errors + 1 },
            results := (runMain cfg sk pre).results ++
              [ResultRecord.errorRecord key e (getObjectStatus env)
                env.elapsed] }
          post := by
  have hout : objectOutcome cfg env =
      { response := none, recordedError := some e,
        backoffs := (List.range' 1 (cfg.retryMaxAttempts - 1)).map
          (fun i => cfg.retryBackoffSeconds ^ i) } := by
    unfold objectOutcome
    have hh := retryLoop_all_fail cfg env.att cfg.retryMaxAttempts 0
      (by omega) hmax hfail
    rw [hlast] at hh
    simpa using hh
  refine ⟨by rw [hout], by rw [hout], ?_⟩
  simp only [runMain, List.foldl_append, List.foldl_cons]
  congr 1
  simp only [step, hout]

end S3AV
namespace S3AV

/-- Object all of whose attempts fail with a transport error; its
diagnostic metadata fetch also fails (`none`), and 7 elapsed seconds
are observed on the error path. -/
def envAllFail : ObjectEnv :=
  { att := fun _ => Attempt.fails ScanError.transport,
    statObject := none, elapsed := 7 }

/-- Witness for claim C8 at the default configuration: an object
failing all three attempts ends with no response, records the
transport cause, and the one-object run equals the summary holding
exactly that error record even though the diagnostic fetch failed. -/
theorem C8_exhausted_retries_witness :
    (objectOutcome cfgDefaults envAllFail).response = none
    ∧ (objectOutcome cfgDefaults envAllFail).recordedError =
        some ScanError.transport
    ∧ runMain cfgDefaults 0 [("lost-object.txt", envAllFail)] =
        List.foldl (step cfgDefaults)
          { counts := { (runMain cfgDefaults 0 []).counts with
              errors := (runMain cfgDefaults 0 []).counts.errors + 1 },
            results := (runMain cfgDefaults 0 []).results ++
              [ResultRecord.errorRecord "lost-object.txt" ScanError.transport
                (getObjectStatus envAllFail) envAllFail.elapsed] }
          [] := by
  have h := C8_exhausted_retries_contained cfgDefaults envAllFail
    ScanError.transport "lost-object.txt" 0 [] [] (by decide)
    (fun i hi1 hi2 => rfl) rfl
  simpa using h

end S3AV
namespace S3AV

/-- Helper: one orchestrator step preserves the summary invariant:
successes split into clean and infected, `results` holds exactly one
record per infected success and per exhausted-retry error, and every
retained record is non-clean. -/
theorem step_preserves (cfg : FailConfig) (s : Summary)
    (o : String × ObjectEnv)
    (h1 : s.counts.success = s.counts.clean + s.counts.infected)
    (h2 : s.results.length = s.counts.infected + s.counts.errors)
    (h3 : s.results.all recordNonClean = true) :
    (step cfg s o).counts.success =
        (step cfg s o).counts.clean + (step cfg s o).counts.infected
    ∧ (step cfg s o).results.length =
        (step cfg s o).counts.infected + (step cfg s o).counts.errors
    ∧ (step cfg s o).results.all recordNonClean = true := by
  simp only [step]
  generalize objectOutcome cfg o.2 = out
  obtain ⟨resp, rerr, bk⟩ := out
  cases rerr with
  | none =>
    cases resp with
    | none => exact ⟨h1, h2, h3⟩
    | some v =>
      cases hv : v.isInfected with
      | true =>
        simp only [hv, if_true]
        refine ⟨by first | (simp; omega) | omega, by first | (simp; omega) | omega, ?_⟩
        simp [List.all_append, h3, recordNonClean, hv]
      | false =>
        simp only [hv]
        exact ⟨by first | (simp; omega) | omega, by first | (simp; omega) | omega, h3⟩
  | some e =>
    cases resp with
    | none =>
      refine ⟨by first | (simp; omega) | omega, by first | (simp; omega) | omega, ?_⟩
      simp [List.all_append, h3, recordNonClean]
    | some v =>
      cases hv : v.isInfected with
      | true =>
        simp only [hv, if_true]
        refine ⟨by first | (simp; omega) | omega, by first | (simp; omega) | omega, ?_⟩
        simp [List.all_append, h3, recordNonClean, hv]
      | false =>
        simp only [hv]
        refine ⟨by first | (simp; omega) | omega, by first | (simp; omega) | omega, ?_⟩
        simp [List.all_append, h3, recordNonClean]

/-- Claim C5: at the end of every run the summary satisfies
`success = clean + infected`, and `results` holds only non-clean
outcome records — one per infected success and one per
exhausted-retry error (so its length is `infected + errors`), while
clean successes are counted without appending anything. -/
theorem C5_summary_invariant (cfg : FailConfig) (skipped : Nat)
    (objs : List (String × ObjectEnv)) :
    (runMain cfg skipped objs).counts.success =
        (runMain cfg skipped objs).counts.clean +
          (runMain cfg skipped objs).counts.infected
    ∧ (runMain cfg skipped objs).results.length =
        (runMain cfg skipped objs).counts.infected +
          (runMain cfg skipped objs).counts.errors
    ∧ (runMain cfg skipped objs).results.all recordNonClean = true := by
  suffices h : ∀ (l : List (String × ObjectEnv)) (s : Summary),
      s.counts.success = s.counts.clean + s.counts.infected →
      s.results.length = s.counts.infected + s.counts.errors →
      s.results.all recordNonClean = true →
      (List.foldl (step cfg) s l).counts.success =
          (List.foldl (step cfg) s l).counts.clean +
            (List.foldl (step cfg) s l).counts.infected
      ∧ (List.foldl (step cfg) s l).results.length =
          (List.foldl (step cfg) s l).counts.infected +
            (List.foldl (step cfg) s l).counts.errors
      ∧ (List.foldl (step cfg) s l).results.all recordNonClean = true by
    exact h objs _ (by simp) (by simp) (by simp)
  intro l
  induction l with
  | nil => intro s h1 h2 h3; exact ⟨h1, h2, h3⟩
  | cons o rest ih =>
    intro s h1 h2 h3
    obtain ⟨g1, g2, g3⟩ := step_preserves cfg s o h1 h2 h3
    exact ih (step cfg s o) g1 g2 g3

end S3AV
namespace S3AV

/-- Claim C6: the run exits with code 1 exactly when some enabled
policy flag's counter (`skipped`, `errors`, `infected`) is positive —
with the skipped condition reported first, then errors, then infected
— and exits 0 otherwise; a flag is false exactly when its environment
variable, lower-cased, is one of `0`, `false`, `no`, `off`, so an
unset variable (or any other value) leaves the flag at its default
true. -/
theorem C6_failure_policy (skippedVar errorVar infectedVar : Option String)
    (backoff maxAttempts : Nat) (c : Counts) :
    (exitCode (failConfigOfEnv skippedVar errorVar infectedVar backoff
        maxAttempts) c = 1 ↔
      (((failConfigOfEnv skippedVar errorVar infectedVar backoff
          maxAttempts).failOnSkipped = true ∧ 0 < c.skipped)
        ∨ ((failConfigOfEnv skippedVar errorVar infectedVar backoff
            maxAttempts).failOnError = true ∧ 0 < c.errors)
        ∨ ((failConfigOfEnv skippedVar errorVar infectedVar backoff
            maxAttempts).failOnInfected = true ∧ 0 < c.infected)))
    ∧ (exitCode (failConfigOfEnv skippedVar errorVar infectedVar backoff
        maxAttempts) c = 1
      ∨ exitCode (failConfigOfEnv skippedVar errorVar infectedVar backoff
          maxAttempts) c = 0)
    ∧ ((failConfigOfEnv skippedVar errorVar infectedVar backoff
        maxAttempts).failOnSkipped = false ↔
          jsToLower (skippedVar.getD "") ∈ falsyValues)
    ∧ ((failConfigOfEnv skippedVar errorVar infectedVar backoff
        maxAttempts).failOnError = false ↔
          jsToLower (errorVar.getD "") ∈ falsyValues)
    ∧ ((failConfigOfEnv skippedVar errorVar infectedVar backoff
        maxAttempts).failOnInfected = false ↔
          jsToLower (infectedVar.getD "") ∈ falsyValues)
    ∧ (failReason (failConfigOfEnv skippedVar errorVar infectedVar backoff
        maxAttempts) c = some FailReason.skippedReason ↔
          ((failConfigOfEnv skippedVar errorVar infectedVar backoff
            maxAttempts).failOnSkipped = true ∧ 0 < c.skipped))
    ∧ (failReason (failConfigOfEnv skippedVar errorVar infectedVar backoff
        maxAttempts) c = some FailReason.errorsReason ↔
          (¬((failConfigOfEnv skippedVar errorVar infectedVar backoff
              maxAttempts).failOnSkipped = true ∧ 0 < c.skipped)
            ∧ (failConfigOfEnv skippedVar errorVar infectedVar backoff
                maxAttempts).failOnError = true ∧ 0 < c.errors))
    ∧ (failReason (failConfigOfEnv skippedVar errorVar infectedVar backoff
        maxAttempts) c = some FailReason.infectedReason ↔
          (¬((failConfigOfEnv skippedVar errorVar infectedVar backoff
              maxAttempts).failOnSkipped = true ∧ 0 < c.skipped)
            ∧ ¬((failConfigOfEnv skippedVar errorVar infectedVar backoff
                maxAttempts).failOnError = true ∧ 0 < c.errors)
            ∧ (failConfigOfEnv skippedVar errorVar infectedVar backoff
                maxAttempts).failOnInfected = true ∧ 0 < c.infected)) := by
  set fc := failConfigOfEnv skippedVar errorVar infectedVar backoff
    maxAttempts with hfc
  have hflags : (fc.failOnSkipped = false ↔
        jsToLower (skippedVar.getD "") ∈ falsyValues)
      ∧ (fc.failOnError = false ↔ jsToLower (errorVar.getD "") ∈ falsyValues)
      ∧ (fc.failOnInfected = false ↔
        jsToLower (infectedVar.getD "") ∈ falsyValues) := by
    refine ⟨?_, ?_, ?_⟩ <;>
      simp [hfc, failConfigOfEnv, flagFromEnv, List.contains_iff_exists_mem_beq]
  refine ⟨?_, ?_, hflags.1, hflags.2.1, hflags.2.2, ?_, ?_, ?_⟩ <;>
  · simp only [exitCode, failReason]
    rcases hs : fc.failOnSkipped <;> rcases he : fc.failOnError <;>
      rcases hi : fc.failOnInfected <;>
      rcases Nat.eq_zero_or_pos c.skipped with h1 | h1 <;>
      rcases Nat.eq_zero_or_pos c.errors with h2 | h2 <;>
      rcases Nat.eq_zero_or_pos c.infected with h3 | h3 <;>
      simp_all <;> omega

end S3AV
namespace S3AV

/-- Helper: membership in a set built by inserting keys in order. -/
theorem mem_foldl_insertUniq (k : String) :
    ∀ (l acc : List String), k ∈ l.foldl insertUniq acc ↔ k ∈ acc ∨ k ∈ l := by
  intro l
  induction l with
  | nil => intro acc; simp
  | cons a t ih =>
    intro acc
    rw [List.foldl_cons, ih]
    have hins : k ∈ insertUniq acc a ↔ k ∈ acc ∨ k = a := by
      unfold insertUniq
      by_cases ha : a ∈ acc
      · rw [if_pos ha]
        constructor
        · exact fun h => Or.inl h
        · rintro (h | rfl)
          · exact h
          · exact ha
      · rw [if_neg ha]
        simp [List.mem_append]
    rw [hins]
    simp [List.mem_cons]
    tauto

/-- Helper: with no limit, the size-mode loop is a plain fold: it
inserts, in enumeration order, the key of every object that passes the
key, folder and size tests, and adds one to the skipped count for
every object that reaches and fails the size test. -/
theorem selectBySize_none (maxFileSize : Nat) :
    ∀ (objs : List ListedObject) (sel : List String) (sk : Nat),
    selectBySize maxFileSize none objs sel sk =
      (((objs.filter (fun o => scannableKey o && !isOversize maxFileSize o)).map
          keyOf).foldl insertUniq sel,
        sk + (objs.filter (fun o =>
          scannableKey o && isOversize maxFileSize o)).length) := by
  intro objs
  induction objs with
  | nil => intro sel sk; simp [selectBySize]
  | cons o rest ih =>
    intro sel sk
    by_cases hk : hasKey o
    · by_cases hf : isFolderKey (keyOf o)
      · have hsc : scannableKey o = false := by simp [scannableKey, hf]
        simp only [selectBySize, hk, hf, Bool.not_true, if_neg, if_pos,
          Bool.false_eq_true, not_false_eq_true, ite_false, ite_true]
        rw [ih sel sk]
        simp [hsc]
      · have hsc : scannableKey o = true := by simp [scannableKey, hk, hf]
        by_cases hov : isOversize maxFileSize o
        · simp only [selectBySize, hk, hf, hov, Bool.not_true,
            Bool.false_eq_true, not_false_eq_true, ite_false, ite_true]
          rw [ih sel (sk + 1), Prod.mk.injEq]
          refine ⟨by simp [hsc, hov], ?_⟩
          simp [hsc, hov]
          omega
        · simp only [selectBySize, hk, hf, hov, Bool.not_true,
            Bool.false_eq_true, not_false_eq_true, ite_false, ite_true,
            limitReached]
          rw [ih (insertUniq sel (keyOf o)) sk]
          have hov' : isOversize maxFileSize o = false := by
            simpa using hov
          simp [hsc, hov']
    · have hk' : hasKey o = false := by simpa using hk
      have hsc : scannableKey o = false := by simp [scannableKey, hk']
      simp only [selectBySize, hk', Bool.not_false, ite_true]
      rw [ih sel sk]
      simp [hsc]

end S3AV
namespace S3AV

/-- Claim C4: with no limit, the size-mode filter excludes
folder-placeholder keys without counting them, excludes every object
failing the size test and counts each exactly once in the skipped
aggregate, and selects every other keyed object in enumeration order
(set-deduplicated); every selected key belongs to an object whose
reported size (0 when absent) is at most `maxFileSize`. -/
theorem C4_size_filter (maxFileSize : Nat) (objs : List ListedObject) :
    (getObjectsForScanningBySize maxFileSize none objs).2 =
        (objs.filter (fun o =>
          scannableKey o && isOversize maxFileSize o)).length
    ∧ (getObjectsForScanningBySize maxFileSize none objs).1 =
        dedupKeep ((objs.filter (fun o =>
          scannableKey o && !isOversize maxFileSize o)).map keyOf)
    ∧ ∀ k ∈ (getObjectsForScanningBySize maxFileSize none objs).1,
        ∃ o ∈ objs, o.key = some k ∧ o.size.getD 0 ≤ maxFileSize := by
  have hpair := selectBySize_none maxFileSize objs [] 0
  refine ⟨by rw [getObjectsForScanningBySize, hpair]; simp,
    by rw [getObjectsForScanningBySize, hpair]; rfl, ?_⟩
  intro k hkmem
  rw [getObjectsForScanningBySize, hpair] at hkmem
  have hk2 : k ∈ (objs.filter (fun o =>
      scannableKey o && !isOversize maxFileSize o)).map keyOf := by
    rcases (mem_foldl_insertUniq k _ []).mp hkmem with h | h
    · simp at h
    · exact h
  rcases List.mem_map.mp hk2 with ⟨o, homem, hkey⟩
  rcases List.mem_filter.mp homem with ⟨hoo, hpred⟩
  have hand : scannableKey o = true ∧ (!isOversize maxFileSize o) = true := by
    simpa [Bool.and_eq_true] using hpred
  have hsc : scannableKey o = true := hand.1
  have hov : isOversize maxFileSize o = false := by simpa using hand.2
  refine ⟨o, hoo, ?_, ?_⟩
  · have hhk : hasKey o = true := by
      have := hsc
      simp only [scannableKey, Bool.and_eq_true] at this
      exact this.1
    cases hko : o.key with
    | none => simp [hasKey, hko] at hhk
    | some s =>
      rw [← hkey]
      simp [keyOf, hko]
  · cases hsz : o.size with
    | none => simp
    | some n =>
      simp only [isOversize, sizeTruthy, hsz, Option.getD_some] at hov
      simp only [Option.getD_some]
      by_contra hgt
      push_neg at hgt
      have h1 : (0 : Nat) < n := by omega
      simp [h1, hgt] at hov

/-- Claim C10: in size mode an object whose reported size is absent or
zero is never excluded by the size rule — the oversize test requires a
truthy size — so (key tests passing) it is always selected, for every
`maxFileSize`. -/
theorem C10_falsy_size_selected (maxFileSize : Nat)
    (objs : List ListedObject) (o : ListedObject)
    (ho : o ∈ objs) (hk : scannableKey o = true)
    (hs : o.size = none ∨ o.size = some 0) :
    isOversize maxFileSize o = false
    ∧ keyOf o ∈ (getObjectsForScanningBySize maxFileSize none objs).1 := by
  have hov : isOversize maxFileSize o = false := by
    rcases hs with h | h <;> simp [isOversize, sizeTruthy, h]
  refine ⟨hov, ?_⟩
  have hpair := selectBySize_none maxFileSize objs [] 0
  rw [getObjectsForScanningBySize, hpair]
  refine (mem_foldl_insertUniq (keyOf o) _ []).mpr (Or.inr ?_)
  exact List.mem_map.mpr ⟨o, List.mem_filter.mpr ⟨ho, by simp [hk, hov]⟩, rfl⟩

/-- One listed object with a truthy key and no reported size. -/
def objNoSize : ListedObject := { key := some "no-size.bin", size := none }

/-- Witness for claim C10: with the limit at zero bytes, the object
with no reported size still passes the size rule and is selected. -/
theorem C10_falsy_size_selected_witness :
    isOversize 0 objNoSize = false
    ∧ keyOf objNoSize ∈ (getObjectsForScanningBySize 0 none [objNoSize]).1 :=
  C10_falsy_size_selected 0 [objNoSize] objNoSize (by simp) (by decide)
    (Or.inl rfl)

end S3AV
namespace S3AV

/-- Helper: with no limit, a key is in the staleness-mode selection
exactly when it was already accumulated or some listed entry carries
it (truthy) with metadata that needs scanning. -/
theorem mem_selectByStaleness_none (parse : String → Option Int) (now : Int)
    (k : String) :
    ∀ (objs : List (Option String × S3ObjectStatus)) (sel : List String),
    k ∈ selectByStaleness parse now none objs sel ↔
      k ∈ sel ∨ ∃ st, (some k, st) ∈ objs ∧ k ≠ "" ∧
        needsScan parse now st = true := by
  intro objs
  induction objs with
  | nil => intro sel; simp [selectByStaleness]
  | cons p rest ih =>
    intro sel
    obtain ⟨ko, st⟩ := p
    cases ko with
    | none =>
      simp only [selectByStaleness, keyTruthy, Bool.not_false, ite_true]
      rw [ih sel]
      simp
    | some key =>
      by_cases hke : key.isEmpty
      · have hkt : keyTruthy (some key) = false := by
          simp [keyTruthy, hke]
        simp only [selectByStaleness, hkt, Bool.not_false, ite_true]
        rw [ih sel]
        have hkeq : key = "" := by
          cases key with
          | mk data => simpa [String.isEmpty_iff] using hke
        constructor
        · rintro (h | ⟨st2, hmem, hne, hns⟩)
          · exact Or.inl h
          · exact Or.inr ⟨st2, List.mem_cons_of_mem _ hmem, hne, hns⟩
        · rintro (h | ⟨st2, hmem, hne, hns⟩)
          · exact Or.inl h
          · rcases List.mem_cons.mp hmem with heq | hmem2
            · exfalso
              apply hne
              have : some k = some key := congrArg Prod.fst heq
              rw [Option.some.inj this, hkeq]
            · exact Or.inr ⟨st2, hmem2, hne, hns⟩
      · have hkt : keyTruthy (some key) = true := by
          simp [keyTruthy, hke]
        have hkne : key ≠ "" := by
          intro hh
          rw [hh] at hke
          exact hke rfl
        simp only [selectByStaleness, hkt, Bool.not_true, Bool.false_eq_true,
          not_false_eq_true, ite_false, if_neg, limitReached, Option.getD_some]
        by_cases hns : needsScan parse now st = true
        · simp only [hns, ite_true]
          rw [ih (insertUniq sel key)]
          have hins : k ∈ insertUniq sel key ↔ k ∈ sel ∨ k = key := by
            unfold insertUniq
            by_cases hkk : key ∈ sel
            · rw [if_pos hkk]
              constructor
              · exact fun h => Or.inl h
              · rintro (h | rfl)
                · exact h
                · exact hkk
            · rw [if_neg hkk]
              simp [List.mem_append]
          rw [hins]
          constructor
          · rintro ((h | rfl) | ⟨st2, hmem, hne, hns2⟩)
            · exact Or.inl h
            · exact Or.inr ⟨st, List.mem_cons_self _ _, hkne, hns⟩
            · exact Or.inr ⟨st2, List.mem_cons_of_mem _ hmem, hne, hns2⟩
          · rintro (h | ⟨st2, hmem, hne, hns2⟩)
            · exact Or.inl (Or.inl h)
            · rcases List.mem_cons.mp hmem with heq | hmem2
              · have h1 : some k = some key := congrArg Prod.fst heq
                exact Or.inl (Or.inr (Option.some.inj h1))
              · exact Or.inr ⟨st2, hmem2, hne, hns2⟩
        · have hns' : needsScan parse now st = false := by simpa using hns
          simp only [hns', Bool.false_eq_true, ite_false, if_neg,
            not_false_eq_true]
          rw [ih sel]
          constructor
          · rintro (h | ⟨st2, hmem, hne, hns2⟩)
            · exact Or.inl h
            · exact Or.inr ⟨st2, List.mem_cons_of_mem _ hmem, hne, hns2⟩
          · rintro (h | ⟨st2, hmem, hne, hns2⟩)
            · exact Or.inl h
            · rcases List.mem_cons.mp hmem with heq | hmem2
              · exfalso
                have h1 : some k = some key := congrArg Prod.fst heq
                have h2 : st2 = st := congrArg Prod.snd heq
                rw [h2] at hns2
                rw [hns2] at hns'
                simp at hns'
              · exact Or.inr ⟨st2, hmem2, hne, hns2⟩

end S3AV
namespace S3AV

/-- Claim C7: in staleness mode (no limit) a keyed stored object is
selected exactly when its stored scan-status tag is not exactly
`clean`, or its scan-timestamp tag is missing, empty, unparseable, or
at least the one-week threshold (`7*24*60*60` seconds, the code
reading `now - parsed < threshold*1000` as recent) old.  The filter is
a total function — it never fails — and unreadable metadata (absent
tags) always selects the object rather than skipping it. -/
theorem C7_staleness_filter (parse : String → Option Int) (now : Int)
    (objs : List (Option String × S3ObjectStatus)) :
    (∀ k : String,
      k ∈ getObjectsForScanningByStaleness parse now none objs ↔
        ∃ st, (some k, st) ∈ objs ∧ k ≠ "" ∧
          (metaLookup st.metadata clamAvStatusKey ≠ some "clean" ∨
            isRecentTimestamp parse now
              (metaLookup st.metadata clamAvTimestampKey)
              LAST_SCAN_THRESHOLD_SECONDS = false))
    ∧ (∀ st : S3ObjectStatus, needsScan parse now st = true ↔
        (metaLookup st.metadata clamAvStatusKey ≠ some "clean" ∨
          isRecentTimestamp parse now
            (metaLookup st.metadata clamAvTimestampKey)
            LAST_SCAN_THRESHOLD_SECONDS = false))
    ∧ (∀ t : Option String,
        isRecentTimestamp parse now t LAST_SCAN_THRESHOLD_SECONDS = false ↔
          (t = none ∨ ∃ s, t = some s ∧
            (s = "" ∨ parse s = none ∨
              ∃ ms, parse s = some ms ∧
                LAST_SCAN_THRESHOLD_SECONDS * 1000 ≤ now - ms))) := by
  have hchar : ∀ st : S3ObjectStatus, needsScan parse now st = true ↔
      (metaLookup st.metadata clamAvStatusKey ≠ some "clean" ∨
        isRecentTimestamp parse now
          (metaLookup st.metadata clamAvTimestampKey)
          LAST_SCAN_THRESHOLD_SECONDS = false) := by
    intro st
    simp only [needsScan, Bool.or_eq_true, Bool.not_eq_true']
    constructor
    · rintro (h | h)
      · exact Or.inr h
      · refine Or.inl ?_
        intro hne
        rw [hne] at h
        simp at h
    · rintro (h | h)
      · refine Or.inr ?_
        simp [beq_eq_false_iff_ne, h]
      · exact Or.inl h
  refine ⟨?_, hchar, ?_⟩
  · intro k
    rw [getObjectsForScanningByStaleness, mem_selectByStaleness_none]
    simp only [List.not_mem_nil, false_or]
    constructor
    · rintro ⟨st, hmem, hne, hsc⟩
      exact ⟨st, hmem, hne, (hchar st).mp hsc⟩
    · rintro ⟨st, hmem, hne, hsc⟩
      exact ⟨st, hmem, hne, (hchar st).mpr hsc⟩
  · intro t
    cases t with
    | none => simp [isRecentTimestamp]
    | some s =>
      by_cases hse : s.isEmpty
      · have hseq : s = "" := by
          cases s with
          | mk data => simpa [String.isEmpty_iff] using hse
        subst hseq
        constructor
        · intro _
          exact Or.inr ⟨"", rfl, Or.inl rfl⟩
        · intro _
          rfl
      · have hsne : s ≠ "" := by
          intro hh
          rw [hh] at hse
          exact hse rfl
        cases hp : parse s with
        | none => simp [isRecentTimestamp, hse, hp, hsne]
        | some ms =>
          simp only [isRecentTimestamp, hse, Bool.false_eq_true, ite_false,
            if_neg, not_false_eq_true, hp]
          constructor
          · intro h
            refine Or.inr ⟨s, rfl, Or.inr (Or.inr ⟨ms, hp, ?_⟩)⟩
            have := of_decide_eq_false h
            omega
          · rintro (h | ⟨s2, hs2, h⟩)
            · exact absurd h (by simp)
            · have hss : s2 = s := (Option.some.inj hs2).symm
              subst hss
              rcases h with h | h | ⟨ms2, hms2, h⟩
              · exact absurd h hsne
              · rw [hp] at h; exact absurd h (by simp)
              · rw [hp] at hms2
                have hmm : ms = ms2 := Option.some.inj hms2
                subst hmm
                have : ¬(now - ms < LAST_SCAN_THRESHOLD_SECONDS * 1000) := by
                  omega
                simp [this]

end S3AV
